import Mathlib

/-!
Verification of the Serial Resource Coordinator and Manifest-Based Sync Engine
of the VScodeMicroPython extension.

The development shallowly embeds the relevant TypeScript sources:

* `src/core/extension.ts` — `withAutoSuspend` (the coordinator `runExclusive`):
  the promise chain `opQueue`, its preemption reset, and the
  try/finally/catch result propagation;
* `src/board/mpremoteCommands.ts` — the terminal/session state machine
  (`suspendSerialSessionsForAutoSync`, `restoreSerialSessionsFromSnapshot`,
  `getReplTerminal`, `closeReplTerminal`, `rerunLastRunCommand`,
  `openReplTerminal`);
* `src/commands/syncCommands.ts` — `syncCommands.syncBaseline` (remote
  directory creation order, upload order, manifest persistence);
* `src/board/MpRemoteManager.ts` — `MpRemoteManagerClass.run` (the internal
  promise lock).

Asynchronous JavaScript is modelled by explicit state passing plus a small
deterministic scheduler for promise-continuation chains; fallible code is
modelled with an `Outcome`/`Except` result type.
-/

namespace MpyWb

/-! ### JS exception-flow combinators

`Outcome ε α` is the settled state of a JS promise / the result of an
`async` function body: `ok v` for a resolved value, `err e` for a raised
error.  `tryCatchAll` and `tryFinally` are the semantics of JS
`try { body } catch (e) { handler(e) }` and `try { body } finally { fin }`
(a `finally` block that itself throws replaces the body's outcome, as in JS).
-/

inductive Outcome (ε α : Type) where
  | ok (v : α)
  | err (e : ε)
deriving DecidableEq, Repr

def tryCatchAll {ε α : Type} (body : Outcome ε α) (handler : ε → Outcome ε α) : Outcome ε α :=
  match body with
  | .ok v => .ok v
  | .err e => handler e

def tryFinally {ε α : Type} (body : Outcome ε α) (fin : Outcome ε Unit) : Outcome ε α :=
  match fin with
  | .ok _ => body
  | .err e => .err e

/-- Result propagation of `withAutoSuspend` (src/core/extension.ts:582-611).
When auto-suspend is enabled, the queued closure runs
`try { ...; return await fn(); } finally { try { await restore... } catch (err) { log } }`;
when disabled it runs `try { return await fn(); } finally { }`.
`fnOut` is the outcome of the caller's `work` closure `fn`, `restoreOut` the
outcome of `restoreSerialSessionsFromSnapshot` inside the `finally` phase. -/
def withAutoSuspendResult {ε α : Type} (enabled : Bool) (fnOut : Outcome ε α)
    (restoreOut : Outcome ε Unit) : Outcome ε α :=
  if enabled then
    tryFinally fnOut (tryCatchAll restoreOut (fun _ => .ok ()))
  else
    tryFinally fnOut (.ok ())

/-! ### The `opQueue` promise chain (src/core/extension.ts:562-611)

Each call to `withAutoSuspend` executes

```
if (opts.preempt !== false) { opQueue = Promise.resolve(); }
opQueue = opQueue.catch(() => {}).then(async () => { ...work... });
return opQueue;
```

A call therefore chains its closure after whatever `opQueue` pointed at when
it arrived — the previous call's chain if it did not preempt, a fresh
already-resolved promise if it did.  Reassigning the `opQueue` variable does
not unregister continuations already attached with `.then` to the old chain;
they still fire when their predecessors settle.

`schedule` gives each call a concrete execution interval under the eager
(microtask) semantics: a closure starts as soon as it is enqueued and its
predecessor (if any) has settled.  `prevFin` is the finish time of the chain
tail `opQueue` currently points at (`none` for an already-resolved queue).
-/

structure OpCall where
  arrival : Nat
  preempt : Bool
  dur : Nat
deriving DecidableEq, Repr

def startTime (c : OpCall) (prevFin : Option Nat) : Nat :=
  match (if c.preempt then none else prevFin) with
  | none => c.arrival
  | some f => max c.arrival f

def schedule : List OpCall → Option Nat → List (Nat × Nat)
  | [], _ => []
  | c :: rest, prevFin =>
    (startTime c prevFin, startTime c prevFin + c.dur)
      :: schedule rest (some (startTime c prevFin + c.dur))

/-- The instrumented in-flight counter: how many scheduled closures are
started and not yet finished at instant `t`. -/
def inFlight (sched : List (Nat × Nat)) (t : Nat) : Nat :=
  (sched.filter (fun p => decide (p.1 ≤ t) && decide (t < p.2))).length

/-! ### Terminal/session state (src/board/mpremoteCommands.ts)

The module-level mutable state of `mpremoteCommands.ts` — `replTerminal`,
`runTerminal`, `userClosedRepl`, `lastRunCommand` — together with the
`microPythonWorkBench.connect` configuration value is collected in
`SessionState`.  A terminal handle that exists and is alive in
`vscode.window.terminals` is modelled by the corresponding `…Open` flag
(`isReplOpen`/`isRunTerminalOpen` reconcile the handle against the live
terminal list; the model identifies the two).  Text sent to a terminal with
`sendText` is recorded in `replSent`/`runSent`; timer-delayed nudges
(the 500 ms Ctrl-C/Ctrl-B after connect) and `show()` calls are not state.
-/

structure LastRunCommand where
  device : String
  filePath : String
  cmd : String
deriving DecidableEq, Repr

structure AutoSuspendSnapshot where
  runWasOpen : Bool
  replWasOpen : Bool
  lastRunCommand : Option LastRunCommand
deriving DecidableEq, Repr

inductive TermMsg where
  | interrupt
  | ctrlX
  | ctrlD
  | cmdText (cmd : String)
deriving DecidableEq, Repr

structure SessionState where
  replOpen : Bool
  runOpen : Bool
  userClosedRepl : Bool
  lastRunCommand : Option LastRunCommand
  connect : String
  replSent : List TermMsg
  runSent : List TermMsg
deriving DecidableEq, Repr

/-- `connect.replace(/^serial:\/\//, "").replace(/^serial:\//, "")`. -/
def stripSerialScheme (c : String) : String :=
  let c1 := if "serial://".isPrefixOf c then c.drop 9 else c
  if "serial:/".isPrefixOf c1 then c1.drop 8 else c1

/-- The shell command `buildShellCommand(["connect", device])` sends to a
terminal (the resolved Python interpreter path is abstracted away). -/
def connectCmd (device : String) : String :=
  "python -m mpremote connect " ++ device

def isReplOpen (s : SessionState) : Bool := s.replOpen

def isRunTerminalOpen (s : SessionState) : Bool := s.runOpen

/-- `disconnectReplTerminal`: send Ctrl-X to the REPL terminal if present. -/
def disconnectReplTerminal (s : SessionState) : SessionState :=
  if s.replOpen then { s with replSent := s.replSent ++ [TermMsg.ctrlX] } else s

/-- `closeReplTerminal(userInitiated = false)`: dispose the REPL terminal and
record `userClosedRepl = userInitiated || userClosedRepl`. -/
def closeReplTerminal (userInitiated : Bool) (s : SessionState) : SessionState :=
  { s with replOpen := false,
           userClosedRepl := userInitiated || s.userClosedRepl }

/-- `closeRunTerminal`: if the run terminal exists, send Ctrl-C and dispose it. -/
def closeRunTerminal (s : SessionState) : SessionState :=
  if s.runOpen then
    { s with runOpen := false, runSent := s.runSent ++ [TermMsg.interrupt] }
  else s

/-- `getRunTerminal`: return the live run terminal or create a fresh one. -/
def getRunTerminal (s : SessionState) : SessionState :=
  if s.runOpen then s else { s with runOpen := true }

/-- `getReplTerminal`: return the live REPL terminal if any; otherwise require
a specific serial port (`connect` neither empty nor `"auto"`, else throw),
create a terminal, send the connect command, and clear `userClosedRepl`. -/
def getReplTerminal (s : SessionState) : Except String SessionState :=
  if s.replOpen then .ok s
  else if s.connect = "" ∨ s.connect = "auto" then
    .error "Select a specific serial port first (not auto)"
  else
    .ok { s with replOpen := true,
                 userClosedRepl := false,
                 replSent := s.replSent
                   ++ [TermMsg.cmdText (connectCmd (stripSerialScheme s.connect))] }

/-- `restartReplInExistingTerminal`: no-op when `connect` is `"auto"`/empty;
recreate the terminal via `getReplTerminal` when it is missing (errors are
swallowed by the surrounding `try`); otherwise resend the connect command to
the existing terminal. -/
def restartReplInExistingTerminal (s : SessionState) : SessionState :=
  if s.connect = "" ∨ s.connect = "auto" then s
  else if s.replOpen = false then
    match getReplTerminal s with
    | .ok s' => s'
    | .error _ => s
  else
    { s with replSent := s.replSent
        ++ [TermMsg.cmdText (connectCmd (stripSerialScheme s.connect))] }

/-- `rerunLastRunCommand(info)`: close the REPL if open to free the port,
reuse or create the run terminal (sending an interrupt when reusing), and
resend the exact remembered command string. -/
def rerunLastRunCommand (info : LastRunCommand) (s : SessionState) : SessionState :=
  let s1 := if isReplOpen s then closeReplTerminal false s else s
  let reuse := isRunTerminalOpen s1
  let s2 := getRunTerminal s1
  let s3 := if reuse then { s2 with runSent := s2.runSent ++ [TermMsg.interrupt] } else s2
  { s3 with runSent := s3.runSent ++ [TermMsg.cmdText info.cmd] }

/-- `suspendSerialSessionsForAutoSync`: snapshot which sessions are open
(remembering the last run command only when the run terminal was open), then
close the run terminal and disconnect + dispose the REPL terminal. -/
def suspendSerialSessionsForAutoSync (s : SessionState) :
    AutoSuspendSnapshot × SessionState :=
  let runWasOpen := isRunTerminalOpen s
  let replWasOpen := isReplOpen s
  let snapshot : AutoSuspendSnapshot :=
    { runWasOpen := runWasOpen
      replWasOpen := replWasOpen
      lastRunCommand := if runWasOpen then s.lastRunCommand else none }
  let s1 := if runWasOpen then closeRunTerminal s else s
  let s2 := if replWasOpen then closeReplTerminal false (disconnectReplTerminal s1) else s1
  (snapshot, s2)

inductive ReplRestoreBehavior where
  | runChanged
  | executeBootMain
  | openReplEmpty
  | none
deriving DecidableEq, Repr

structure RestoreOpts where
  resumeReplCommand : Option String
  replBehavior : ReplRestoreBehavior
deriving DecidableEq, Repr

/-- `restoreSerialSessionsFromSnapshot(snapshot, opts)`: prefer replaying the
remembered run command; otherwise reopen the REPL per `opts.replBehavior`
unless the user manually closed it or the behavior is `"none"`. -/
def restoreSerialSessionsFromSnapshot (snap : AutoSuspendSnapshot)
    (opts : RestoreOpts) (s : SessionState) : SessionState :=
  match snap.runWasOpen, snap.lastRunCommand with
  | true, some info => rerunLastRunCommand info s
  | _, _ =>
    if snap.replWasOpen then
      if s.userClosedRepl then s
      else if opts.replBehavior = ReplRestoreBehavior.none then s
      else
        let s1 := restartReplInExistingTerminal s
        let s2 := if opts.replBehavior = ReplRestoreBehavior.executeBootMain ∧ s1.replOpen then
            { s1 with replSent := s1.replSent ++ [TermMsg.ctrlD] }
          else s1
        match opts.replBehavior, opts.resumeReplCommand with
        | ReplRestoreBehavior.runChanged, some cmd =>
          if s2.replOpen then { s2 with replSent := s2.replSent ++ [TermMsg.cmdText cmd] }
          else s2
        | _, _ => s2
    else s

/-- The session-state effect of one enabled, non-skipping `withAutoSuspend`
call (`src/core/extension.ts:593-611`): suspend the serial sessions, run the
`work` closure — which performs device I/O through the mpremote subprocess
and does not touch the terminal-session state — and restore from the
snapshot in the `finally` phase, which runs whether `work` resolved or
rejected.  `workOut` is `work`'s outcome. -/
def withAutoSuspendFull {ε : Type} (opts : RestoreOpts) (workOut : Outcome ε Unit)
    (s : SessionState) : SessionState × Outcome ε Unit :=
  let p := suspendSerialSessionsForAutoSync s
  (restoreSerialSessionsFromSnapshot p.1 opts p.2, workOut)

/-! ### `openReplTerminal` retry loop (src/board/mpremoteCommands.ts:443-479)

`openReplTerminal` runs `for (attempt = 1; attempt <= 2; attempt++)`: the
attempt body (strict-connect handshake, `getReplTerminal`, `show`) either
succeeds and returns, or throws.  The catch classifies the error message
(lowercased) as transient when it contains one of four serial-failure
substrings; a transient error on attempt 1 waits a fixed 1200 ms backoff and
retries, any error on attempt 2 and any non-transient error is rethrown.
`results n` is the outcome of the `n`-th attempt body. -/

def charsHasInfix (pat : List Char) : List Char → Bool
  | [] => decide (pat = [])
  | c :: rest => pat.isPrefixOf (c :: rest) || charsHasInfix pat rest

structure ReplError where
  message : String
deriving DecidableEq, Repr

/-- The transient-condition test of `openReplTerminal`'s catch block on
`String(err?.message || err).toLowerCase()` (the lowercasing is applied to
the message's character list). -/
def isTransientReplError (e : ReplError) : Bool :=
  let msg := e.message.toList.map Char.toLower
  charsHasInfix "device not configured".toList msg ||
    charsHasInfix "serialexception".toList msg ||
    charsHasInfix "serial port not found".toList msg ||
    charsHasInfix "read failed".toList msg

/-- `openReplTerminal`: result is the number of the attempt that succeeded
(or the raised error); the second component records the backoff delays
awaited between attempts. -/
def openReplTerminalTrace (results : Nat → Outcome ReplError Unit) :
    Outcome ReplError Nat × List Nat :=
  match results 1 with
  | .ok _ => (.ok 1, [])
  | .err e =>
    if isTransientReplError e then
      match results 2 with
      | .ok _ => (.ok 2, [1200])
      | .err e2 => (.err e2, [1200])
    else (.err e, [])

/-! ### `syncCommands.syncBaseline` (src/commands/syncCommands.ts:57-179)

For an already-initialized workspace the command builds a fresh manifest,
runs the upload batch — the remote `mkdir` pass with every error swallowed
(`try { await mp.mkdir(dir) } catch (e) { /* ignore */ }`), then the
sequential `mp.uploadReplacing` calls, each of which aborts the batch by
throwing — and only after the batch resolves does it execute
`saveManifest(manifestPath, man)`; the outer try/catch shows an error
message and leaves the stored manifest untouched.  `mkdirs`/`uploads` are
the outcomes of the individual subprocess calls, `stored` the durable
baseline manifest before the command, `fresh` the newly built manifest. -/

def mkdirPhase {ε : Type} (outs : List (Outcome ε Unit)) : Outcome ε Unit :=
  outs.foldl (fun acc o =>
    match acc with
    | .err e => .err e
    | .ok _ => tryCatchAll o (fun _ => .ok ())) (.ok ())

def runUploadsSeq {ε : Type} : List (Outcome ε Unit) → Outcome ε Unit
  | [] => .ok ()
  | o :: rest =>
    match o with
    | .ok _ => runUploadsSeq rest
    | .err e => .err e

def syncBaselineModel {ε μ : Type} (stored : Option μ) (fresh : μ)
    (mkdirs uploads : List (Outcome ε Unit)) : Option μ × Option ε :=
  match (match mkdirPhase mkdirs with
         | .err e => .err e
         | .ok _ => runUploadsSeq uploads : Outcome ε Unit) with
  | .ok _ => (some fresh, none)
  | .err e => (stored, some e)

/-! ### Remote directory creation in `syncBaseline`
(src/commands/syncCommands.ts:123-166)

Device paths are modelled by their `'/'`-separated segment lists with the
leading root slash implicit: the normalized absolute posix path `/a/b` is
`["a", "b"]`, the device root `"/"` is `[]`, and a relative manifest path
`x/y/z.py` is `["x", "y", "z.py"]`.  On such normalized paths the JS string
operations correspond segmentwise: `path.posix.join(rootPath, relativePath)`
is list append, `path.posix.dirname` is `dropLast` (with `[]`, i.e. `"/"`,
fixed), string equality is list equality, and the sort key
`p.split('/').length` is `length + 1` (splitting an absolute path yields a
leading empty segment).  `path.posix.dirname` returns `"."` only for
root-free relative paths, which cannot arise from joining an absolute root,
so the `deviceDir !== '.'` guard is vacuous here and omitted. -/

/-- JS `p.split('/').length` for an absolute normalized path. -/
def jsDepth (p : List String) : Nat := p.length + 1

/-- JS `Set.prototype.add`: insertion-ordered, duplicates ignored
(`Array.from` of the set is the accumulated list itself). -/
def setAdd (l : List (List String)) (x : List String) : List (List String) :=
  if x ∈ l then l else l ++ [x]

/-- The inner `while (currentDir !== rootPath && currentDir !== '/')` loop:
add `currentDir` to the set, then ascend with `path.posix.dirname`.  `fuel`
bounds the iterations; each step drops one segment, so any fuel of at least
`currentDir.length + 1` is exact. -/
def addAncestors (root : List String) :
    Nat → List (List String) → List String → List (List String)
  | 0, acc, _ => acc
  | fuel + 1, acc, cur =>
    if cur = root ∨ cur = [] then acc
    else addAncestors root fuel (setAdd acc cur) cur.dropLast

/-- One iteration of the collection pass:
`deviceDir = path.posix.dirname(path.posix.join(rootPath, relativePath))`;
skip when it equals the root, else add it and every ancestor below root. -/
def collectDirsStep (root : List String) (acc : List (List String))
    (rel : List String) : List (List String) :=
  let deviceDir := (root ++ rel).dropLast
  if deviceDir = root then acc
  else addAncestors root (deviceDir.length + 1) acc deviceDir

/-- The `allDirectories` set after the collection pass over all manifest
file paths. -/
def allDirectoriesFor (root : List String) (files : List (List String)) :
    List (List String) :=
  files.foldl (collectDirsStep root) []

/-- The sort comparator `(a, b) => a.split('/').length - b.split('/').length`
as a Boolean "less or equal" test. -/
def depthLe (a b : List String) : Bool :=
  decide (jsDepth a ≤ jsDepth b)

/-- `Array.from(allDirectories).sort((a, b) => a.split('/').length - b.split('/').length)`. -/
def sortedDirectories (dirs : List (List String)) : List (List String) :=
  dirs.mergeSort depthLe

inductive SyncAction where
  | mkdir (d : List String)
  | upload (rel : List String)
deriving DecidableEq, Repr

def SyncAction.isMkdir : SyncAction → Bool
  | .mkdir _ => true
  | .upload _ => false

/-- The device-touching actions issued by the upload batch of
`syncBaseline`, in source order: one `mp.mkdir` per entry of the
depth-sorted directory list, then one `mp.uploadReplacing` per manifest
file. -/
def baselineActions (root : List String) (files : List (List String)) :
    List SyncAction :=
  (sortedDirectories (allDirectoriesFor root files)).map SyncAction.mkdir
    ++ files.map SyncAction.upload

/-! ### `MpRemoteManagerClass.run` (src/board/MpRemoteManager.ts:131-191)

Each invocation executes

```
const myLock = new Promise(res => { release = res });
this._lock = prev.then(() => myLock);
await prev;
```

so invocations chain FIFO on `_lock` — the same continuation-chain scheduler
as `opQueue`, but never reset (`preempt = false` everywhere).  The body then
launches the subprocess inside `new Promise((resolve, reject) => { try {
exec(cmd, cb) } catch (e) { ...; release(); reject(e) } })`, where the exec
callback clears the bookkeeping in a `try/finally` whose `finally` calls
`release()` before resolving or rejecting.  `ExecOutcome` is what the
launch does: throw synchronously before the subprocess starts, or complete
with an error or with stdout/stderr. -/

inductive ExecOutcome (ε : Type) where
  | throwsBeforeStart (e : ε)
  | completes (err : Option ε) (stdout stderr : String)
deriving DecidableEq, Repr

inductive RunEvent where
  | spawnAttempt
  | childExit
  | release
deriving DecidableEq, Repr

/-- The result and event trace of one `MpRemoteManagerClass.run` body. -/
def mpRunTrace {ε : Type} : ExecOutcome ε → Outcome ε (String × String) × List RunEvent
  | .throwsBeforeStart e => (.err e, [.spawnAttempt, .release])
  | .completes none out errS => (.ok (out, errS), [.spawnAttempt, .childExit, .release])
  | .completes (some e) _ _ => (.err e, [.spawnAttempt, .childExit, .release])

/-- The `_lock` chain: `run`/`spawn` invocations (given as arrival/duration
pairs) scheduled as a never-preempted continuation chain. -/
def runLockSchedule (invocations : List (Nat × Nat)) : List (Nat × Nat) :=
  schedule (invocations.map (fun p => ⟨p.1, false, p.2⟩)) none

end MpyWb

namespace MpyWb

theorem schedule_length (calls : List OpCall) (pf : Option Nat) :
    (schedule calls pf).length = calls.length := by
  induction calls generalizing pf with
  | nil => rfl
  | cons c rest ih => simp [schedule, ih]

theorem startTime_le_of_no_preempt (c : OpCall) (f0 : Nat)
    (hc : c.preempt = false) : f0 ≤ startTime c (some f0) := by
  simp [startTime, hc]

theorem schedule_lb (calls : List OpCall) (f0 : Nat)
    (h : ∀ c ∈ calls, c.preempt = false) :
    ∀ p ∈ schedule calls (some f0), f0 ≤ p.1 ∧ p.1 ≤ p.2 := by
  induction calls generalizing f0 with
  | nil =>
    intro p hp
    simp [schedule] at hp
  | cons c rest ih =>
    intro p hp
    have hc : c.preempt = false := h c (List.mem_cons_self _ _)
    rw [schedule, List.mem_cons] at hp
    rcases hp with hp | hp
    · subst hp
      exact ⟨startTime_le_of_no_preempt c f0 hc, Nat.le_add_right _ _⟩
    · have hlb := ih (startTime c (some f0) + c.dur)
        (fun d hd => h d (List.mem_cons_of_mem _ hd)) p hp
      have h1 : f0 ≤ startTime c (some f0) := startTime_le_of_no_preempt c f0 hc
      exact ⟨le_trans (le_trans h1 (Nat.le_add_right _ _)) hlb.1, hlb.2⟩

theorem inFlight_le_one_of_serial (calls : List OpCall) (pf : Option Nat)
    (h : ∀ c ∈ calls, c.preempt = false) (t : Nat) :
    inFlight (schedule calls pf) t ≤ 1 := by
  induction calls generalizing pf with
  | nil => simp [schedule, inFlight]
  | cons c rest ih =>
    have hrest : ∀ d ∈ rest, d.preempt = false :=
      fun d hd => h d (List.mem_cons_of_mem _ hd)
    rw [schedule, inFlight, List.filter_cons]
    by_cases hact : (decide (startTime c pf ≤ t) && decide (t < startTime c pf + c.dur)) = true
    · rw [if_pos hact]
      have hnil : (schedule rest (some (startTime c pf + c.dur))).filter
          (fun p => decide (p.1 ≤ t) && decide (t < p.2)) = [] := by
        rw [List.filter_eq_nil_iff]
        intro p hp
        have hlb := schedule_lb rest _ hrest p hp
        simp only [Bool.and_eq_true, decide_eq_true_eq] at hact ⊢
        omega
      rw [hnil]
      simp
    · rw [if_neg hact]
      have := ih (some (startTime c pf + c.dur)) hrest
      simpa [inFlight] using this

theorem schedule_start_of_preempt (calls : List OpCall) (pf : Option Nat)
    (k : Nat) (hk : k < calls.length)
    (hp : (calls.getD k ⟨0, false, 0⟩).preempt = true) :
    ((schedule calls pf).getD k (0, 0)).1 = (calls.getD k ⟨0, false, 0⟩).arrival := by
  induction calls generalizing pf k with
  | nil => simp at hk
  | cons c rest ih =>
    cases k with
    | zero =>
      simp only [List.getD_cons_zero] at hp ⊢
      simp [schedule, startTime, hp]
    | succ k =>
      simp only [List.getD_cons_succ] at hp ⊢
      rw [schedule, List.getD_cons_succ]
      exact ih _ k (by simpa using Nat.lt_of_succ_lt_succ hk) hp

/-- C1 (counterexample): the in-flight counter CAN exceed 1.  Two callers
invoke `withAutoSuspend` with `preempt` left at its default (`true`): the
first closure runs over `[0, 10)`; the second arrives at `t = 5`, resets
`opQueue` to `Promise.resolve()` and chains onto the fresh resolved promise,
so its closure starts at `t = 5` while the first is still in flight.  At
`t = 6` two work closures are started and unfinished, refuting the claim
that the counter never exceeds 1 "regardless of the preempt option each
caller passes". -/
theorem preempt_overlap_cex :
    inFlight (schedule [⟨0, true, 10⟩, ⟨5, true, 10⟩] none) 6 = 2 := by
  decide

/-- C1 (amended): coordinator-wrapped work closures never overlap in time —
the instrumented in-flight counter never exceeds 1 — provided every caller
passes `preempt: false`, so that each closure is chained after the previous
call's completion on `opQueue`; a caller using `preempt: true` (the default)
instead chains onto a fresh resolved promise and can overlap a closure
already in flight. -/
theorem mutual_exclusion_without_preempt (calls : List OpCall)
    (h : ∀ c ∈ calls, c.preempt = false) (t : Nat) :
    inFlight (schedule calls none) t ≤ 1 :=
  inFlight_le_one_of_serial calls none h t

theorem mutual_exclusion_without_preempt_wit :
    inFlight (schedule [⟨0, false, 5⟩, ⟨2, false, 3⟩] none) 4 ≤ 1 :=
  mutual_exclusion_without_preempt [⟨0, false, 5⟩, ⟨2, false, 3⟩] (by decide) 4

/-- C2 (counterexample): preemption does not cancel queued-but-not-started
operations.  W is mid-flight over `[0, 10)`; X and Y are enqueued behind it
(arrivals 1 and 2, `preempt: false`), and Z arrives at `t = 3` with
`preempt: true`, before X has started.  Reassigning `opQueue =
Promise.resolve()` does not unregister the `.then` continuations X and Y
already attached to the old chain: the computed schedule shows X running
over `[10, 12)` and Y over `[12, 14)` after W settles — they do execute —
while Z runs over `[3, 5)`.  This refutes the claim that X and Y never
execute. -/
theorem preempt_does_not_cancel_cex :
    schedule [⟨0, true, 10⟩, ⟨1, false, 2⟩, ⟨2, false, 2⟩, ⟨3, true, 2⟩] none =
      [(0, 10), (10, 12), (12, 14), (3, 5)] := rfl

/-- C2 (amended): enqueueing Z with `preempt=true` before X has started only
makes Z stop waiting for the queue — Z's closure starts at its own arrival
instant, chained on a fresh resolved promise — while every previously
enqueued operation remains attached to the old continuation chain and still
executes once its predecessors settle (the schedule assigns an execution
interval to every enqueued call; none is cancelled). -/
theorem preempt_skips_queue_but_cancels_nothing (calls : List OpCall)
    (pf : Option Nat) (k : Nat) (hk : k < calls.length)
    (hp : (calls.getD k ⟨0, false, 0⟩).preempt = true) :
    (schedule calls pf).length = calls.length ∧
    ((schedule calls pf).getD k (0, 0)).1 = (calls.getD k ⟨0, false, 0⟩).arrival :=
  ⟨schedule_length calls pf, schedule_start_of_preempt calls pf k hk hp⟩

theorem preempt_skips_queue_but_cancels_nothing_wit :
    (schedule [⟨0, true, 10⟩, ⟨1, false, 2⟩, ⟨2, false, 2⟩, ⟨3, true, 2⟩] none).length =
      ([⟨0, true, 10⟩, ⟨1, false, 2⟩, ⟨2, false, 2⟩, ⟨3, true, 2⟩] : List OpCall).length ∧
    ((schedule [⟨0, true, 10⟩, ⟨1, false, 2⟩, ⟨2, false, 2⟩, ⟨3, true, 2⟩] none).getD 3 (0, 0)).1 =
      (([⟨0, true, 10⟩, ⟨1, false, 2⟩, ⟨2, false, 2⟩, ⟨3, true, 2⟩] : List OpCall).getD 3 ⟨0, false, 0⟩).arrival :=
  preempt_skips_queue_but_cancels_nothing
    [⟨0, true, 10⟩, ⟨1, false, 2⟩, ⟨2, false, 2⟩, ⟨3, true, 2⟩] none 3 (by decide) (by decide)

/-- C3: for every work closure `fn`, `withAutoSuspend` propagates `fn`'s
outcome unchanged to its caller: a resolution resolves the call with the same
value, a rejection rejects it with the same error, and this holds for every
outcome of `restoreSerialSessionsFromSnapshot` in the always-run `finally`
phase — a restoration failure is caught and logged, never masking `fn`'s
result.  (`src/core/extension.ts:593-611`.) -/
theorem withAutoSuspend_propagates_outcome {ε α : Type} (enabled : Bool)
    (fnOut : Outcome ε α) (restoreOut : Outcome ε Unit) :
    withAutoSuspendResult enabled fnOut restoreOut = fnOut := by
  cases enabled <;> cases restoreOut <;> rfl

theorem suspend_state (s : SessionState) :
    (suspendSerialSessionsForAutoSync s).2.replOpen = false ∧
    (suspendSerialSessionsForAutoSync s).2.runOpen = false ∧
    (suspendSerialSessionsForAutoSync s).2.userClosedRepl = s.userClosedRepl ∧
    (suspendSerialSessionsForAutoSync s).2.connect = s.connect ∧
    (suspendSerialSessionsForAutoSync s).1 =
      ⟨s.runOpen, s.replOpen, if s.runOpen then s.lastRunCommand else none⟩ := by
  by_cases h1 : s.runOpen = true <;> by_cases h2 : s.replOpen = true <;>
    simp [suspendSerialSessionsForAutoSync, isReplOpen, isRunTerminalOpen,
      closeReplTerminal, closeRunTerminal, disconnectReplTerminal, h1, h2]

theorem restore_openReplEmpty_opens (snap : AutoSuspendSnapshot)
    (opts : RestoreOpts) (s : SessionState)
    (hbranch : snap.runWasOpen = false ∨ snap.lastRunCommand = none)
    (hw : snap.replWasOpen = true) (hu : s.userClosedRepl = false)
    (hb : opts.replBehavior = ReplRestoreBehavior.openReplEmpty)
    (hc1 : s.connect ≠ "") (hc2 : s.connect ≠ "auto") (hro : s.replOpen = false) :
    (restoreSerialSessionsFromSnapshot snap opts s).replOpen = true := by
  obtain ⟨rwo, pwo, lrc⟩ := snap
  simp only at hbranch hw
  subst hw
  have hneq : ¬ (s.connect = "" ∨ s.connect = "auto") := not_or.mpr ⟨hc1, hc2⟩
  have hrestart : (restartReplInExistingTerminal s).replOpen = true := by
    rw [restartReplInExistingTerminal, if_neg hneq, if_pos hro,
      getReplTerminal, if_neg (by simp [hro]), if_neg hneq]
  cases rwo with
  | false =>
    cases lrc <;>
      simp [restoreSerialSessionsFromSnapshot, hu, hb, hrestart]
  | true =>
    rcases hbranch with h | h
    · exact absurd h (by simp)
    · subst h
      simp [restoreSerialSessionsFromSnapshot, hu, hb, hrestart]

/-- C4 (counterexample): the snapshot records the interactive REPL as open at
suspend time (`replWasOpen = true`) and `replBehavior = openReplEmpty`, but
the run terminal was also open with a remembered last run command, so
`restoreSerialSessionsFromSnapshot` takes the run-replay branch and returns
without reopening the REPL: after the call settles the REPL session is
closed, refuting the claim for this invocation. -/
theorem openReplEmpty_run_priority_cex :
    ((withAutoSuspendFull
        ⟨none, ReplRestoreBehavior.openReplEmpty⟩
        (Outcome.ok () : Outcome String Unit)
        ⟨true, true, false,
          some ⟨"COM3", "main.py", "python -m mpremote connect COM3 run main.py"⟩,
          "COM3", [], []⟩).1).replOpen = false := by
  decide

/-- C4 (amended): for every invocation of `withAutoSuspend` with
`replBehavior = openReplEmpty` in which the interactive REPL session was open
at suspend time, the REPL session is open again after the call settles, even
if the work closure threw an error — provided the one-shot run replay does
not take priority (the run terminal was not also open with a remembered
command), the user had not manually closed the REPL, and a specific serial
port is configured (`connect` neither empty nor `"auto"` — both necessarily
the case while a REPL terminal is open). -/
theorem openReplEmpty_restores_repl {ε : Type} (opts : RestoreOpts)
    (out : Outcome ε Unit) (s : SessionState)
    (hb : opts.replBehavior = ReplRestoreBehavior.openReplEmpty)
    (hr : s.replOpen = true)
    (hu : s.userClosedRepl = false)
    (hc1 : s.connect ≠ "") (hc2 : s.connect ≠ "auto")
    (hnp : s.runOpen = false ∨ s.lastRunCommand = none) :
    ((withAutoSuspendFull opts out s).1).replOpen = true := by
  obtain ⟨h1, h2, h3, h4, h5⟩ := suspend_state s
  rw [withAutoSuspendFull]
  apply restore_openReplEmpty_opens
  · rw [h5]
    rcases hnp with h | h
    · exact Or.inl (by simp [h])
    · by_cases hro : s.runOpen = true
      · exact Or.inr (by simp [hro, h])
      · exact Or.inl (by simp at hro; simp [hro])
  · rw [h5]; simpa using hr
  · rw [h3]; exact hu
  · exact hb
  · rw [h4]; exact hc1
  · rw [h4]; exact hc2
  · exact h1

theorem openReplEmpty_restores_repl_wit :
    ((withAutoSuspendFull
        ⟨none, ReplRestoreBehavior.openReplEmpty⟩
        (Outcome.err "work failed" : Outcome String Unit)
        ⟨true, false, false, none, "COM3", [], []⟩).1).replOpen = true :=
  openReplEmpty_restores_repl _ _ _ rfl rfl rfl
    (by decide) (by decide) (Or.inl rfl)

/-- C5: when the snapshot records the one-shot run terminal as open with a
remembered last run command, `restoreSerialSessionsFromSnapshot` replays
exactly the remembered command string in the run terminal — closing the
interactive REPL first if it is open (nothing further is ever sent to it)
and sending an interrupt first when an existing run terminal is reused —
and returns without reopening the interactive session, even when the
snapshot also records the interactive session as open. -/
theorem run_replay_priority (snap : AutoSuspendSnapshot) (opts : RestoreOpts)
    (s : SessionState) (info : LastRunCommand)
    (h1 : snap.runWasOpen = true) (h2 : snap.lastRunCommand = some info) :
    (restoreSerialSessionsFromSnapshot snap opts s).replOpen = false ∧
    (restoreSerialSessionsFromSnapshot snap opts s).runOpen = true ∧
    (restoreSerialSessionsFromSnapshot snap opts s).runSent =
      s.runSent ++ (if s.runOpen then [TermMsg.interrupt, TermMsg.cmdText info.cmd]
                    else [TermMsg.cmdText info.cmd]) ∧
    (restoreSerialSessionsFromSnapshot snap opts s).replSent = s.replSent := by
  obtain ⟨rwo, pwo, lrc⟩ := snap
  simp only at h1 h2
  subst h1 h2
  by_cases hrepl : s.replOpen = true <;> by_cases hrun : s.runOpen = true <;>
    simp [restoreSerialSessionsFromSnapshot, rerunLastRunCommand, isReplOpen,
      isRunTerminalOpen, closeReplTerminal, getRunTerminal, hrepl, hrun]

theorem run_replay_priority_wit :
    (restoreSerialSessionsFromSnapshot
      ⟨true, true, some ⟨"COM3", "main.py", "python -m mpremote connect COM3 run main.py"⟩⟩
      ⟨none, ReplRestoreBehavior.none⟩
      ⟨true, true, false, none, "COM3", [], []⟩).replOpen = false ∧
    (restoreSerialSessionsFromSnapshot
      ⟨true, true, some ⟨"COM3", "main.py", "python -m mpremote connect COM3 run main.py"⟩⟩
      ⟨none, ReplRestoreBehavior.none⟩
      ⟨true, true, false, none, "COM3", [], []⟩).runOpen = true ∧
    (restoreSerialSessionsFromSnapshot
      ⟨true, true, some ⟨"COM3", "main.py", "python -m mpremote connect COM3 run main.py"⟩⟩
      ⟨none, ReplRestoreBehavior.none⟩
      ⟨true, true, false, none, "COM3", [], []⟩).runSent =
      [TermMsg.interrupt,
       TermMsg.cmdText "python -m mpremote connect COM3 run main.py"] ∧
    (restoreSerialSessionsFromSnapshot
      ⟨true, true, some ⟨"COM3", "main.py", "python -m mpremote connect COM3 run main.py"⟩⟩
      ⟨none, ReplRestoreBehavior.none⟩
      ⟨true, true, false, none, "COM3", [], []⟩).replSent = [] := by
  simpa using run_replay_priority
    ⟨true, true, some ⟨"COM3", "main.py", "python -m mpremote connect COM3 run main.py"⟩⟩
    ⟨none, ReplRestoreBehavior.none⟩
    ⟨true, true, false, none, "COM3", [], []⟩
    ⟨"COM3", "main.py", "python -m mpremote connect COM3 run main.py"⟩ rfl rfl

/-- C9: if the interactive REPL was closed with `userInitiated = true` and no
new REPL terminal has been opened since (so `userClosedRepl` is still set and
the REPL is closed), then for every snapshot that records the interactive
session as open, `restoreSerialSessionsFromSnapshot` does not reopen the
REPL; and opening a new REPL terminal via `getReplTerminal` clears the
user-closed suppression flag. -/
theorem user_closed_suppresses_reopen :
    (∀ (snap : AutoSuspendSnapshot) (opts : RestoreOpts) (s : SessionState),
      s.userClosedRepl = true → s.replOpen = false → snap.replWasOpen = true →
      (restoreSerialSessionsFromSnapshot snap opts s).replOpen = false) ∧
    (∀ (s s' : SessionState), getReplTerminal s = .ok s' → s.replOpen = false →
      s'.userClosedRepl = false) := by
  constructor
  · intro snap opts s hu hro hw
    obtain ⟨rwo, pwo, lrc⟩ := snap
    simp only at hw
    subst hw
    cases rwo with
    | true =>
      cases lrc with
      | none => simp [restoreSerialSessionsFromSnapshot, hu, hro]
      | some info =>
        by_cases hrun : s.runOpen = true <;>
          simp [restoreSerialSessionsFromSnapshot, rerunLastRunCommand, isReplOpen,
            isRunTerminalOpen, closeReplTerminal, getRunTerminal, hro, hrun]
    | false => simp [restoreSerialSessionsFromSnapshot, hu, hro]
  · intro s s' h hro
    rw [getReplTerminal] at h
    rw [hro] at h
    simp only [Bool.false_eq_true, if_false] at h
    split at h
    · exact absurd h (by simp)
    · rw [Except.ok.injEq] at h
      subst h
      rfl

/-- C8: `openReplTerminal` makes at most two attempts: if the first attempt
fails with a transient "not configured"/"busy"-style serial condition it
waits the fixed 1200 ms backoff and retries exactly once, a failure of the
second attempt raises that error to the caller, and a non-transient error
raises immediately without any retry or backoff. -/
theorem openRepl_retry (results : Nat → Outcome ReplError Unit) :
    (results 1 = .ok () → openReplTerminalTrace results = (.ok 1, [])) ∧
    (∀ e, results 1 = .err e → isTransientReplError e = true →
      (openReplTerminalTrace results).2 = [1200] ∧
      (results 2 = .ok () → (openReplTerminalTrace results).1 = .ok 2) ∧
      (∀ e2, results 2 = .err e2 → (openReplTerminalTrace results).1 = .err e2)) ∧
    (∀ e, results 1 = .err e → isTransientReplError e = false →
      openReplTerminalTrace results = (.err e, [])) ∧
    (∀ n, (openReplTerminalTrace results).1 = .ok n → n ≤ 2) := by
  refine ⟨?_, ?_, ?_, ?_⟩
  · intro hok
    simp [openReplTerminalTrace, hok]
  · intro e he ht
    refine ⟨?_, ?_, ?_⟩
    · cases h2 : results 2 <;> simp [openReplTerminalTrace, he, ht, h2]
    · intro hok2
      simp [openReplTerminalTrace, he, ht, hok2]
    · intro e2 he2
      simp [openReplTerminalTrace, he, ht, he2]
  · intro e he hnt
    simp [openReplTerminalTrace, he, hnt]
  · intro n hn
    rcases h1 : results 1 with v | e
    · rw [openReplTerminalTrace, h1] at hn
      simp at hn
      omega
    · by_cases ht : isTransientReplError e = true
      · rcases h2 : results 2 with v2 | e2
        · rw [openReplTerminalTrace, h1] at hn
          simp [ht, h2] at hn
          omega
        · rw [openReplTerminalTrace, h1] at hn
          simp [ht, h2] at hn
      · rw [openReplTerminalTrace, h1] at hn
        simp [ht] at hn

theorem openRepl_retry_wit :
    (openReplTerminalTrace (fun n =>
      if n = 1 then Outcome.err ⟨"OSError: [Errno 6] Device not configured"⟩
      else Outcome.ok ())).2 = [1200] :=
  ((openRepl_retry (fun n =>
      if n = 1 then Outcome.err ⟨"OSError: [Errno 6] Device not configured"⟩
      else Outcome.ok ())).2.1
    ⟨"OSError: [Errno 6] Device not configured"⟩ rfl (by decide)).1

theorem tryCatchAll_swallow {ε : Type} (o : Outcome ε Unit) :
    tryCatchAll o (fun _ => Outcome.ok ()) = .ok () := by
  cases o with
  | ok v => cases v; rfl
  | err e => rfl

theorem mkdirPhase_ok {ε : Type} (outs : List (Outcome ε Unit)) :
    mkdirPhase outs = .ok () := by
  induction outs with
  | nil => rfl
  | cons o rest ih =>
    rw [mkdirPhase, List.foldl_cons]
    have hstep : (match (Outcome.ok () : Outcome ε Unit) with
        | .err e => Outcome.err e
        | .ok _ => tryCatchAll o (fun _ => Outcome.ok ())) = (Outcome.ok () : Outcome ε Unit) :=
      tryCatchAll_swallow o
    rw [hstep]
    exact ih

/-- C7: in `syncBaseline`, the durable baseline manifest is overwritten with
the freshly built manifest only after the whole upload batch — the remote
`mkdir` pass (whose individual failures are swallowed) and every sequential
file upload — has completed without an uncaught error; if any upload step
throws, the outer catch reports the error and the previously stored baseline
manifest is left unchanged. -/
theorem manifest_saved_only_after_full_success {ε μ : Type} (stored : Option μ)
    (fresh : μ) (mkdirs uploads : List (Outcome ε Unit)) :
    mkdirPhase mkdirs = .ok () ∧
    (∀ e, runUploadsSeq uploads = .err e →
      syncBaselineModel stored fresh mkdirs uploads = (stored, some e)) ∧
    (runUploadsSeq uploads = .ok () →
      syncBaselineModel stored fresh mkdirs uploads = (some fresh, none)) := by
  refine ⟨mkdirPhase_ok mkdirs, ?_, ?_⟩
  · intro e h
    rw [syncBaselineModel, mkdirPhase_ok mkdirs, h]
  · intro h
    rw [syncBaselineModel, mkdirPhase_ok mkdirs, h]

theorem manifest_saved_only_after_full_success_wit :
    syncBaselineModel (some 0) 1 ([] : List (Outcome String Unit))
      [Outcome.ok (), Outcome.err "cp failed"] = (some 0, some "cp failed") :=
  (manifest_saved_only_after_full_success (some 0) 1 []
    [Outcome.ok (), Outcome.err "cp failed"]).2.1 "cp failed" rfl

theorem schedule_chain_of_serial (calls : List OpCall) (pf : Option Nat)
    (h : ∀ c ∈ calls, c.preempt = false) :
    List.Chain' (fun a b => a.2 ≤ b.1) (schedule calls pf) := by
  induction calls generalizing pf with
  | nil => simp [schedule]
  | cons c rest ih =>
    rw [schedule, List.chain'_cons']
    refine ⟨?_, ih _ (fun d hd => h d (List.mem_cons_of_mem _ hd))⟩
    intro b hb
    have hmem : b ∈ schedule rest (some (startTime c pf + c.dur)) :=
      List.mem_of_mem_head? hb
    exact (schedule_lb rest _ (fun d hd => h d (List.mem_cons_of_mem _ hd)) b hmem).1

/-- C10: every `MpRemoteManagerClass.run` invocation chains on the internal
`_lock` promise, so invocations execute strictly one after another — each
waits for all previously issued run/spawn invocations to finish (the
scheduled intervals form a finish-before-start chain and at most one is ever
in flight) — and the lock's `release` is executed exactly once, as the final
event, on every exit path of the body: subprocess success, subprocess error,
and a synchronous throw before the subprocess starts; hence a failed
invocation never leaves the lock held. -/
theorem run_lock_releases_and_serializes {ε : Type} (o : ExecOutcome ε)
    (invs : List (Nat × Nat)) (t : Nat) :
    (mpRunTrace o).2.count RunEvent.release = 1 ∧
    (mpRunTrace o).2.getLast? = some RunEvent.release ∧
    List.Chain' (fun a b => a.2 ≤ b.1) (runLockSchedule invs) ∧
    inFlight (runLockSchedule invs) t ≤ 1 := by
  have hall : ∀ c ∈ (invs.map (fun p => (⟨p.1, false, p.2⟩ : OpCall))), c.preempt = false := by
    intro c hc
    obtain ⟨p, _, hp⟩ := List.mem_map.mp hc
    rw [← hp]
  refine ⟨?_, ?_, ?_, ?_⟩
  · rcases o with e | ⟨err, out, errS⟩
    · rfl
    · cases err <;> rfl
  · rcases o with e | ⟨err, out, errS⟩
    · rfl
    · cases err <;> rfl
  · exact schedule_chain_of_serial _ none hall
  · exact inFlight_le_one_of_serial _ none hall t

theorem mem_setAdd_of_mem {l : List (List String)} {x : List String}
    (y : List String) (h : x ∈ l) : x ∈ setAdd l y := by
  rw [setAdd]
  split
  · exact h
  · exact List.mem_append_left _ h

theorem mem_setAdd_self (l : List (List String)) (x : List String) :
    x ∈ setAdd l x := by
  rw [setAdd]
  split
  · assumption
  · exact List.mem_append_right _ (List.mem_singleton.mpr rfl)

theorem mem_addAncestors_of_mem (root : List String) (fuel : Nat)
    (acc : List (List String)) (cur : List String) {x : List String}
    (h : x ∈ acc) : x ∈ addAncestors root fuel acc cur := by
  induction fuel generalizing acc cur with
  | zero => exact h
  | succ fuel ih =>
    rw [addAncestors]
    split
    · exact h
    · exact ih _ _ (mem_setAdd_of_mem _ h)

theorem addAncestors_mem_take (root : List String) :
    ∀ (fuel : Nat) (l : List String) (acc : List (List String)) (k : Nat),
      l ≠ [] → 1 ≤ k → k ≤ l.length → l.length ≤ fuel →
      (root ++ l.take k) ∈ addAncestors root fuel acc (root ++ l) := by
  intro fuel
  induction fuel with
  | zero =>
    intro l acc k hl _ _ hf
    exact absurd (List.length_eq_zero.mp (Nat.le_zero.mp hf)) hl
  | succ fuel ih =>
    intro l acc k hl hk1 hk2 hf
    rw [addAncestors]
    have hne1 : ¬ (root ++ l = root) := by
      intro h
      have hlen := congrArg List.length h
      simp at hlen
      exact hl hlen
    have hne2 : ¬ (root ++ l = []) := by
      simp [hl]
    rw [if_neg (not_or.mpr ⟨hne1, hne2⟩)]
    rw [List.dropLast_append_of_ne_nil root hl]
    by_cases hkl : k = l.length
    · subst hkl
      rw [List.take_length]
      exact mem_addAncestors_of_mem _ _ _ _ (mem_setAdd_self acc (root ++ l))
    · have hklt : k < l.length := lt_of_le_of_ne hk2 hkl
      have hld : l.dropLast ≠ [] := by
        intro h
        have hlen := congrArg List.length h
        rw [List.length_dropLast] at hlen
        simp at hlen
        omega
      have htake : l.take k = l.dropLast.take k := by
        rw [List.dropLast_eq_take, List.take_take, Nat.min_eq_left (by omega)]
      rw [htake]
      exact ih l.dropLast (setAdd acc (root ++ l)) k hld hk1
        (by rw [List.length_dropLast]; omega)
        (by rw [List.length_dropLast]; omega)

theorem mem_collectDirsStep_of_mem (root : List String)
    (acc : List (List String)) (rel : List String) {x : List String}
    (h : x ∈ acc) : x ∈ collectDirsStep root acc rel := by
  simp only [collectDirsStep]
  split
  · exact h
  · exact mem_addAncestors_of_mem _ _ _ _ h

theorem mem_foldl_collect_of_mem (root : List String)
    (files : List (List String)) (acc : List (List String)) {x : List String}
    (h : x ∈ acc) : x ∈ files.foldl (collectDirsStep root) acc := by
  induction files generalizing acc with
  | nil => exact h
  | cons f rest ih => exact ih _ (mem_collectDirsStep_of_mem root acc f h)

theorem collectDirsStep_complete (root : List String)
    (acc : List (List String)) (rel : List String) (k : Nat)
    (hk1 : 1 ≤ k) (hk2 : k ≤ rel.dropLast.length) :
    (root ++ rel.dropLast.take k) ∈ collectDirsStep root acc rel := by
  have hld : rel.dropLast ≠ [] := by
    intro h
    rw [h] at hk2
    simp at hk2
    omega
  have hrel : rel ≠ [] := by
    intro h
    subst h
    simp at hld
  simp only [collectDirsStep]
  rw [List.dropLast_append_of_ne_nil root hrel]
  have hne : ¬ (root ++ rel.dropLast = root) := by
    intro h
    have hlen := congrArg List.length h
    simp at hlen
    exact hld (List.length_eq_zero.mp (by rw [List.length_dropLast]; exact hlen))
  rw [if_neg hne]
  exact addAncestors_mem_take root _ rel.dropLast acc k hld hk1 hk2
    (by simp [List.length_append]; omega)

theorem foldl_collect_complete (root : List String) (rel : List String)
    (k : Nat) (hk1 : 1 ≤ k) (hk2 : k ≤ rel.dropLast.length) :
    ∀ (files : List (List String)) (acc : List (List String)), rel ∈ files →
      (root ++ rel.dropLast.take k) ∈ files.foldl (collectDirsStep root) acc := by
  intro files
  induction files with
  | nil =>
    intro acc h
    cases h
  | cons f rest ih =>
    intro acc h
    rw [List.foldl_cons]
    rcases List.mem_cons.mp h with h | h
    · subst h
      exact mem_foldl_collect_of_mem root rest _
        (collectDirsStep_complete root acc rel k hk1 hk2)
    · exact ih _ h

theorem allDirectoriesFor_complete (root : List String)
    (files : List (List String)) (rel : List String) (hrel : rel ∈ files)
    (k : Nat) (hk1 : 1 ≤ k) (hk2 : k ≤ rel.dropLast.length) :
    (root ++ rel.dropLast.take k) ∈ allDirectoriesFor root files :=
  foldl_collect_complete root rel k hk1 hk2 files [] hrel

theorem sortedDirectories_sorted (dirs : List (List String)) :
    (sortedDirectories dirs).Pairwise (fun a b => jsDepth a ≤ jsDepth b) := by
  have htrans : ∀ a b c : List String,
      depthLe a b = true → depthLe b c = true → depthLe a c = true := by
    intro a b c hab hbc
    simp only [depthLe, decide_eq_true_eq] at hab hbc ⊢
    omega
  have htotal : ∀ a b : List String, (depthLe a b || depthLe b a) = true := by
    intro a b
    simp only [depthLe]
    rcases Nat.le_total (jsDepth a) (jsDepth b) with h | h
    · rw [decide_eq_true h, Bool.true_or]
    · rw [decide_eq_true h, Bool.or_true]
  have h : (dirs.mergeSort depthLe).Pairwise (fun a b => depthLe a b = true) :=
    List.sorted_mergeSort htrans htotal dirs
  rw [sortedDirectories]
  exact h.imp (fun hab => by simpa [depthLe] using hab)

theorem sortedDirectories_parent_first (dirs : List (List String)) :
    (sortedDirectories dirs).Pairwise
      (fun a b => ¬ (∃ t, t ≠ [] ∧ b ++ t = a)) := by
  refine (sortedDirectories_sorted dirs).imp ?_
  intro a b hab
  rintro ⟨t, ht, hbt⟩
  have hlen := congrArg List.length hbt
  simp only [jsDepth] at hab
  simp only [List.length_append] at hlen
  have htl : 0 < t.length := List.length_pos.mpr ht
  omega

theorem baselineActions_mkdirs_first (root : List String)
    (files : List (List String)) :
    (baselineActions root files).filter SyncAction.isMkdir ++
      (baselineActions root files).filter (fun a => ! SyncAction.isMkdir a) =
      baselineActions root files := by
  rw [baselineActions, List.filter_append, List.filter_append,
    List.filter_map, List.filter_map, List.filter_map, List.filter_map]
  have h1 : List.filter (SyncAction.isMkdir ∘ SyncAction.mkdir)
      (sortedDirectories (allDirectoriesFor root files)) =
      sortedDirectories (allDirectoriesFor root files) :=
    List.filter_eq_self.mpr (fun a _ => rfl)
  have h2 : List.filter (SyncAction.isMkdir ∘ SyncAction.upload) files = [] :=
    List.filter_eq_nil_iff.mpr (fun a _ => Bool.false_ne_true)
  have h3 : List.filter ((fun a => ! SyncAction.isMkdir a) ∘ SyncAction.mkdir)
      (sortedDirectories (allDirectoriesFor root files)) = [] :=
    List.filter_eq_nil_iff.mpr (fun a _ => Bool.false_ne_true)
  have h4 : List.filter ((fun a => ! SyncAction.isMkdir a) ∘ SyncAction.upload)
      files = files :=
    List.filter_eq_self.mpr (fun a _ => rfl)
  rw [h1, h2, h3, h4]
  simp

/-- C6: in the local-to-board baseline sync, the remote directory-creation
pass computes every ancestor directory of every uploaded file strictly below
the configured device root (for a manifest file `rel` under root `root`,
every prefix `root ++ rel.dropLast.take k` with `1 ≤ k`), issues the
`mp.mkdir` calls sorted by JS path depth (`p.split('/').length`) ascending —
so no listed directory is ever preceded by a proper descendant of it, i.e.
every parent directory is created before any of its descendant directories —
and in the batch's action sequence all `mkdir` calls are issued before any
file upload begins. -/
theorem baseline_dir_creation (root : List String) (files : List (List String)) :
    (∀ rel ∈ files, ∀ k, 1 ≤ k → k ≤ rel.dropLast.length →
      (root ++ rel.dropLast.take k) ∈ allDirectoriesFor root files) ∧
    (sortedDirectories (allDirectoriesFor root files)).Pairwise
      (fun a b => jsDepth a ≤ jsDepth b) ∧
    (sortedDirectories (allDirectoriesFor root files)).Pairwise
      (fun a b => ¬ (∃ t, t ≠ [] ∧ b ++ t = a)) ∧
    (baselineActions root files).filter SyncAction.isMkdir ++
      (baselineActions root files).filter (fun a => ! SyncAction.isMkdir a) =
      baselineActions root files :=
  ⟨fun rel hrel k hk1 hk2 => allDirectoriesFor_complete root files rel hrel k hk1 hk2,
   sortedDirectories_sorted _, sortedDirectories_parent_first _,
   baselineActions_mkdirs_first root files⟩

theorem baseline_dir_creation_wit :
    (([] : List String) ++ (["src", "lib", "a.py"] : List String).dropLast.take 1) ∈
      allDirectoriesFor [] [["src", "lib", "a.py"]] :=
  (baseline_dir_creation [] [["src", "lib", "a.py"]]).1 ["src", "lib", "a.py"]
    (List.mem_singleton.mpr rfl) 1 (by decide) (by decide)

theorem user_closed_suppresses_reopen_wit :
    (restoreSerialSessionsFromSnapshot ⟨false, true, none⟩
      ⟨none, ReplRestoreBehavior.openReplEmpty⟩
      ⟨false, false, true, none, "COM3", [], []⟩).replOpen = false :=
  user_closed_suppresses_reopen.1 ⟨false, true, none⟩
    ⟨none, ReplRestoreBehavior.openReplEmpty⟩
    ⟨false, false, true, none, "COM3", [], []⟩ rfl rfl rfl

end MpyWb
